import Mathlib

set_option maxRecDepth 8000

/-!
Verification development for the blog-publishing pipeline in
`blog_publish.py`.  The Python source is shallowly embedded: strings are
`String` / `List Char`, regex substitution is implemented as explicit
scanners that mirror the exact matching discipline of the three compiled
patterns (`IMAGE_PATTERN`, `WIKILINK_PATTERN`, `DRAFT_PATTERN`), the
filesystem stores are association lists from file names to contents, and
`datetime` values are explicit records.  Python semantics that the script
relies on (truthiness, `str.strip`, `dict.get`, `re.sub` left-to-right
non-overlapping scanning with no rescan of replacements) are modelled by
the `py*` helpers below.  ASCII-level case and whitespace semantics are
used; the exotic parts of Unicode case folding, of the Unicode whitespace
table, and of `str.isdigit`/`str.title` are outside the model, and none of
the statements below depend on them.  Scanners recurse on an explicit
`fuel` argument instantiated with the input length; every match consumes
at least one character, so that fuel always suffices (proved below where a
general statement needs it).
-/

namespace BlogPub

/-! ## Python string and dict primitives -/

/-- Whitespace characters stripped by Python's `str.strip()` (the ASCII and
Latin-1 part of the table, which is what the script's inputs use). -/
def pyIsSpaceChar (c : Char) : Bool :=
  c = ' ' || c = '\t' || c = '\n' || c = '\r' || c = '\x0b' || c = '\x0c' ||
  c = '\x1c' || c = '\x1d' || c = '\x1e' || c = '\x1f' || c = '\x85' || c = '\xa0'

/-- `str.lstrip()` on a character list. -/
def pyLstripL (l : List Char) : List Char := l.dropWhile pyIsSpaceChar

/-- `str.rstrip()` on a character list. -/
def pyRstripL (l : List Char) : List Char := (l.reverse.dropWhile pyIsSpaceChar).reverse

/-- `str.strip()` on a character list. -/
def pyStripL (l : List Char) : List Char := pyRstripL (pyLstripL l)

/-- `str.strip()` on a `String`. -/
def pyStrip (s : String) : String := ⟨pyStripL s.data⟩

/-- `str.rstrip()` on a `String`. -/
def pyRstrip (s : String) : String := ⟨pyRstripL s.data⟩

/-- Substring test: does `needle` occur contiguously inside `hay`?  This is
Python's `needle in hay` for strings. -/
def containsSub (needle : List Char) : List Char → Bool
  | [] => needle.isEmpty
  | c :: cs => needle.isPrefixOf (c :: cs) || containsSub needle cs

/-- First value bound to key `k` in an association list (Python `dict`
lookup; the script's dicts never hold duplicate keys). -/
def pyLookup {α : Type} : List (String × α) → String → Option α
  | [], _ => none
  | (k', v) :: rest, k => if k' = k then some v else pyLookup rest k

/-- Bind key `k` to `v`: overwrite the existing binding in place, or append
a new one.  This is `d[k] = v` on a Python dict, and also the effect of
opening a destination file for writing (overwrite or create). -/
def pyUpdate {α : Type} : List (String × α) → String → α → List (String × α)
  | [], k, v => [(k, v)]
  | (k', v') :: rest, k, v =>
    if k' = k then (k, v) :: rest else (k', v') :: pyUpdate rest k v

/-- `str.split()` with no arguments: split on whitespace runs, dropping
empty tokens.  The accumulator carries the current token reversed. -/
def pySplitWsGo (cur : List Char) : List Char → List (List Char)
  | [] => if cur.isEmpty then [] else [cur.reverse]
  | c :: cs =>
    if pyIsSpaceChar c then
      if cur.isEmpty then pySplitWsGo [] cs else cur.reverse :: pySplitWsGo [] cs
    else pySplitWsGo (c :: cur) cs

/-- `str.split()` on a `String`. -/
def pySplitWs (s : String) : List String := (pySplitWsGo [] s.data).map (⟨·⟩)

/-- A line-break character for `str.splitlines()`. -/
def isLineBreakChar (c : Char) : Bool :=
  c = '\n' || c = '\r' || c = '\x0b' || c = '\x0c' || c = '\x1c' || c = '\x1d' ||
  c = '\x1e' || c = '\x85' || c = '\u2028' || c = '\u2029'

/-- `str.splitlines()`: split at line-break characters (with CR-LF counting
as a single break), no trailing empty line for a trailing break. -/
def splitlinesGo (cur : List Char) : List Char → List (List Char)
  | [] => if cur.isEmpty then [] else [cur.reverse]
  | '\r' :: '\n' :: rest => cur.reverse :: splitlinesGo [] rest
  | c :: rest =>
    if isLineBreakChar c then cur.reverse :: splitlinesGo [] rest
    else splitlinesGo (c :: cur) rest

/-- `' '.join(parts)` on character lists. -/
def joinSpace : List (List Char) → List Char
  | [] => []
  | [x] => x
  | x :: xs => x ++ ' ' :: joinSpace xs

/-- `str.lower()` (ASCII case mapping). -/
def pyLower (s : String) : String := ⟨s.data.map Char.toLower⟩

/-- One step of `str.title()`: a cased character is uppercased when it
follows a non-cased character and lowercased otherwise. -/
def pyTitleGo : List Char → Bool → List Char
  | [], _ => []
  | c :: cs, prevAlpha =>
    (if c.isAlpha then (if prevAlpha then c.toLower else c.toUpper) else c) ::
      pyTitleGo cs c.isAlpha

/-- `str.title()` (ASCII letters as the cased characters). -/
def pyTitle (s : String) : String := ⟨pyTitleGo s.data false⟩

/-- `str.isdigit()` restricted to ASCII digits (the script uses it on size
hints such as `500`). -/
def pyIsDigit (s : String) : Bool := !s.data.isEmpty && s.data.all Char.isDigit

/-! ## Metadata values

Front-matter values are heterogeneous: strings, lists, dates, datetimes,
or missing.  Truthiness follows Python. -/

/-- A `datetime.datetime` value (the fields printed by the script's
formats; `datetime` validates `1 <= year <= 9999`, `1 <= month <= 12`,
valid day, `hour <= 23`, `minute <= 59`). -/
structure PyDateTime where
  year : Nat
  month : Nat
  day : Nat
  hour : Nat
  minute : Nat
deriving DecidableEq

/-- A `datetime.date` value. -/
structure PyDate where
  year : Nat
  month : Nat
  day : Nat
deriving DecidableEq

/-- A YAML front-matter value. -/
inductive Value where
  | vnone : Value
  | vstr : String → Value
  | vint : Int → Value
  | vlist : List Value → Value
  | vdatetime : PyDateTime → Value
  | vdate : PyDate → Value

/-- Python truthiness of a front-matter value. -/
def pyTruthy : Value → Bool
  | .vnone => false
  | .vstr s => s ≠ ""
  | .vint n => n ≠ 0
  | .vlist l => !l.isEmpty
  | .vdatetime _ => true
  | .vdate _ => true

/-- Python `a or b` on front-matter values: `a` when truthy, else `b`. -/
def pyOr (a b : Value) : Value := if pyTruthy a then a else b

/-- A metadata record: an ordered mapping from string keys to values. -/
abbrev Meta := List (String × Value)

/-- `d.get(k)`: `None` when the key is absent. -/
def getMetaD (m : Meta) (k : String) : Value := (pyLookup m k).getD .vnone

/-- `d.get(k, default)`. -/
def pyGet (m : Meta) (k : String) (dflt : Value) : Value := (pyLookup m k).getD dflt

/-- Does a string equal a front-matter value under Python `==`?  (A string
never equals a non-string value.) -/
def valueEqStr (v : Value) (s : String) : Bool :=
  match v with
  | .vstr t => t = s
  | _ => false

/-- Python `x in v` for a string `x`: membership for a list value,
substring test for a string value, false otherwise (the script only ever
applies this to the tag list). -/
def pyInStr (x : String) (v : Value) : Bool :=
  match v with
  | .vlist l => l.any (fun e => valueEqStr e x)
  | .vstr t => containsSub x.data t.data
  | _ => false

/-! ## Date normalisation (`_normalise_date`) -/

/-- A zero-padded two-digit field (`%02d` / `%(02)d` in `strftime` and
`isoformat`; the script only formats fields that are at most two digits). -/
def pad2 (n : Nat) : String := ⟨[Nat.digitChar (n / 10 % 10), Nat.digitChar (n % 10)]⟩

/-- A zero-padded four-digit year (`isoformat` always pads the year to four
digits; `strftime` `%Y` agrees for the years 1000-9999). -/
def pad4 (n : Nat) : String :=
  ⟨[Nat.digitChar (n / 1000 % 10), Nat.digitChar (n / 100 % 10),
    Nat.digitChar (n / 10 % 10), Nat.digitChar (n % 10)]⟩

/-- `dt.strftime("%Y-%m-%d %H:%M")`. -/
def fmtDateTime (dt : PyDateTime) : String :=
  pad4 dt.year ++ "-" ++ pad2 dt.month ++ "-" ++ pad2 dt.day ++ " " ++
    pad2 dt.hour ++ ":" ++ pad2 dt.minute

/-- `d.isoformat()`. -/
def fmtDate (d : PyDate) : String :=
  pad4 d.year ++ "-" ++ pad2 d.month ++ "-" ++ pad2 d.day

/-- `_normalise_date(raw_date)`, with the current time `now` passed
explicitly (the script reads `datetime.now()`): a datetime is rendered
with `%Y-%m-%d %H:%M`; a date with `isoformat`; a non-blank string is
passed through stripped; everything else falls back to `now`. -/
def _normalise_date (now : PyDateTime) (raw : Value) : String :=
  match raw with
  | .vdatetime dt => fmtDateTime dt
  | .vdate d => fmtDate d
  | .vstr s => if pyStrip s = "" then fmtDateTime now else pyStrip s
  | _ => fmtDateTime now

/-- Does a character list have the exact shape `YYYY-MM-DD HH:MM`? -/
def matchesTimestampShapeL : List Char → Bool
  | [y1, y2, y3, y4, s1, m1, m2, s2, d1, d2, s3, h1, h2, s4, n1, n2] =>
    y1.isDigit && y2.isDigit && y3.isDigit && y4.isDigit && s1 = '-' &&
    m1.isDigit && m2.isDigit && s2 = '-' && d1.isDigit && d2.isDigit &&
    s3 = ' ' && h1.isDigit && h2.isDigit && s4 = ':' && n1.isDigit && n2.isDigit
  | _ => false

/-- Does a string have the exact shape `YYYY-MM-DD HH:MM`? -/
def matchesTimestampShape (s : String) : Bool := matchesTimestampShapeL s.data

/-- Does a character list have the exact shape `YYYY-MM-DD`? -/
def matchesDateShapeL : List Char → Bool
  | [y1, y2, y3, y4, s1, m1, m2, s2, d1, d2] =>
    y1.isDigit && y2.isDigit && y3.isDigit && y4.isDigit && s1 = '-' &&
    m1.isDigit && m2.isDigit && s2 = '-' && d1.isDigit && d2.isDigit
  | _ => false

/-- Does a string have the exact shape `YYYY-MM-DD`? -/
def matchesDateShape (s : String) : Bool := matchesDateShapeL s.data

/-- The field ranges `datetime.datetime` guarantees, with the year further
restricted to four digits (for years below 1000 the rendering of `%Y` is
platform-dependent, which the spec's `YYYY` shape does not contemplate). -/
def validDateTime (dt : PyDateTime) : Prop :=
  1000 ≤ dt.year ∧ dt.year ≤ 9999 ∧ 1 ≤ dt.month ∧ dt.month ≤ 12 ∧
    1 ≤ dt.day ∧ dt.day ≤ 31 ∧ dt.hour ≤ 23 ∧ dt.minute ≤ 59

/-- The field ranges `datetime.date` guarantees (year unrestricted below
because `isoformat` zero-pads the year to four digits on every platform). -/
def validDate (d : PyDate) : Prop :=
  1 ≤ d.year ∧ d.year ≤ 9999 ∧ 1 ≤ d.month ∧ d.month ≤ 12 ∧ 1 ≤ d.day ∧ d.day ≤ 31

instance (dt : PyDateTime) : Decidable (validDateTime dt) := by
  unfold validDateTime; infer_instance

instance (d : PyDate) : Decidable (validDate d) := by
  unfold validDate; infer_instance

/-! ## Front-matter assembly (`build_new_frontmatter`) -/

/-- The title-selection expression
`original.get("title") or original.get("slug") or fallback_title`. -/
def titleSelect (original : Meta) (fallback_title : String) : Value :=
  pyOr (getMetaD original "title") (pyOr (getMetaD original "slug") (.vstr fallback_title))

/-- `build_new_frontmatter(original, fallback_title)`: the fixed-schema
record, in the insertion order of the source dict literal.  `title-image`
and `excerpt` are injected later by `process_file`. -/
def build_new_frontmatter (now : PyDateTime) (original : Meta) (fallback_title : String) :
    Meta :=
  [("layout", .vstr "post"),
   ("categories", .vstr "blog"),
   ("title", titleSelect original fallback_title),
   ("date", .vstr (_normalise_date now (pyGet original "date" .vnone))),
   ("tags", pyGet original "tags" (.vlist []))]

/-- Python `first_img or DEFAULT_TITLE_IMAGE` on an optional string. -/
def pyOrStr (o : Option String) (dflt : String) : String :=
  match o with
  | some s => if s = "" then dflt else s
  | none => dflt

/-- The full seven-key output record as assembled by `process_file`:
`build_new_frontmatter` followed by the `title-image` and `excerpt`
assignments. -/
def assembledRecord (now : PyDateTime) (original : Meta) (fallback_title : String)
    (titleImage excerpt : String) : Meta :=
  pyUpdate (pyUpdate (build_new_frontmatter now original fallback_title)
    "title-image" (.vstr titleImage)) "excerpt" (.vstr excerpt)

/-! ## Configuration constants

From the CONFIG block of the script.  `DEST_IMG_DIR` is the `images`
directory and `DEST_MD_DIR` is the `_posts` directory of the same site
root, so `DEST_IMG_DIR.relative_to(DEST_MD_DIR.parent)` is `images`. -/

/-- `DEFAULT_TITLE_IMAGE` from the script's CONFIG block. -/
def DEFAULT_TITLE_IMAGE : String := "/images/default_title_image.png"

/-- `WIKILINK_REPLACEMENTS` from the script's CONFIG block (empty). -/
def WIKILINK_REPLACEMENTS : List (String × String) := []

/-- `EXCERPT_MAX` from the script's CONFIG block (a `None` limit means no
hard cap). -/
def EXCERPT_MAX : Option Nat := some 500

/-- Image contents are byte lists. -/
abbrev Bytes := List Nat

/-- An asset store (a directory of image files): file name to contents. -/
abbrev ImgStore := List (String × Bytes)

/-- `str.replace("\\", "/")`: rewrite every backslash to a forward slash. -/
def replaceBackslashes (s : String) : String :=
  ⟨s.data.map (fun c => if c = '\\' then '/' else c)⟩

/-- The destination reference computed by `extract_and_copy_image`:
`"/" + str(DEST_IMG_DIR.relative_to(DEST_MD_DIR.parent) / img_name).replace("\\", "/")`. -/
def relPath (imgName : String) : String :=
  "/" ++ replaceBackslashes ("images/" ++ imgName)

/-- `extract_and_copy_image(img_name)` with the filesystem made explicit:
look the asset up in the source image store; if absent report failure
(`None`) and leave the destination store untouched; if present copy it
(`shutil.copy2`, overwriting any existing destination file of that name)
and return the destination reference. -/
def extract_and_copy_image (srcImg destImg : ImgStore) (imgName : String) :
    Option String × ImgStore :=
  match pyLookup srcImg imgName with
  | none => (none, destImg)
  | some bytes => (some (relPath imgName), pyUpdate destImg imgName bytes)

/-- The pure projection of `extract_and_copy_image`: the reference returned
for a name, independent of the destination store. -/
def resolveImage (srcImg : ImgStore) (imgName : String) : Option String :=
  (extract_and_copy_image srcImg [] imgName).1

/-! ## The draft-block stripper

The source compiles `DRAFT_PATTERN` from the raw regex
`<--draft-->` then `[\s\S]*?` then `<`, `\\`, `?`-optional slash,
`--draft-->`, with the IGNORECASE flag.  So the opening delimiter is the
literal text `<--draft-->`, and the closing delimiter is `<`, a literal
backslash, an optional forward slash, then `--draft-->`.  The interior is
non-greedy, so a match ends at the nearest closing delimiter.  Matching is
case-insensitive on the letters. -/

/-- Consume the (lowercase) pattern `p` from the front of `l`,
case-insensitively; return the remainder on success. -/
def stripPrefixCI : List Char → List Char → Option (List Char)
  | [], l => some l
  | _, [] => none
  | p :: ps, c :: cs => if c.toLower = p then stripPrefixCI ps cs else none

/-- Try to match the closing draft delimiter (`<`, backslash, optional
slash, `--draft-->`, case-insensitive) at the head of `l`; return the
remainder after the delimiter. -/
def draftEndAt (l : List Char) : Option (List Char) :=
  match l with
  | '<' :: '\\' :: rest =>
    match rest with
    | '/' :: rest2 => stripPrefixCI "--draft-->".data rest2
    | _ => stripPrefixCI "--draft-->".data rest
  | _ => none

/-- Scan forward for the nearest closing draft delimiter; return the
remainder after it.  This realises the non-greedy interior of
`DRAFT_PATTERN`. -/
def findDraftEnd : List Char → Option (List Char)
  | [] => none
  | c :: cs =>
    match draftEndAt (c :: cs) with
    | some r => some r
    | none => findDraftEnd cs

/-- Try to match `DRAFT_PATTERN` at the head of `l`; on success return the
remainder after the whole match. -/
def draftMatchAt (l : List Char) : Option (List Char) :=
  match stripPrefixCI "<--draft-->".data l with
  | some rest => findDraftEnd rest
  | none => none

/-- One pass of `DRAFT_PATTERN.sub("", body)`: scan left to right, delete
every match, never rescan emitted text.  `fuel` bounds the recursion and is
instantiated with the input length, which always suffices because every
step consumes at least one character. -/
def draftSubGo : Nat → List Char → List Char
  | 0, l => l
  | _ + 1, [] => []
  | fuel + 1, c :: cs =>
    match draftMatchAt (c :: cs) with
    | some rest => draftSubGo fuel rest
    | none => c :: draftSubGo fuel cs

/-- `DRAFT_PATTERN.sub("", body)` on a `String`. -/
def draftSub (s : String) : String := ⟨draftSubGo s.data.length s.data⟩

/-! ## The wiki-link and image scanners

`IMAGE_PATTERN` is compiled from `!`, `[[`, group 1 = one or more
characters that are neither `]` nor `|`, an optional group of `|` followed
by group 2 = one or more characters that are not `]`, then `]]`.
`WIKILINK_PATTERN` is the same without the leading `!`.  Both groups are
greedy runs over their character classes, so a match at a position is
determined as follows: after the opening brackets read the maximal run of
name characters (it must be non-empty); then either `]]` follows (no
second group), or `|` followed by the maximal non-`]` run (non-empty) and
then `]]`; anything else is a failed match at this position. -/

/-- The character class of `IMAGE_PATTERN`/`WIKILINK_PATTERN` group 1:
anything but `]` and `|`. -/
def isNameChar (c : Char) : Bool := !(c == ']' || c == '|')

/-- The character class of group 2: anything but `]`. -/
def isDispChar (c : Char) : Bool := !(c == ']')

/-- Try to match `WIKILINK_PATTERN` at the head of `l`.  On success return
(group 1, optional group 2, remainder after the match). -/
def wikiMatchAt (l : List Char) : Option (List Char × Option (List Char) × List Char) :=
  match l with
  | '[' :: '[' :: rest =>
    match rest.takeWhile isNameChar, rest.dropWhile isNameChar with
    | [], _ => none
    | name, ']' :: ']' :: r2 => some (name, none, r2)
    | name, '|' :: r2 =>
      (match r2.takeWhile isDispChar, r2.dropWhile isDispChar with
      | [], _ => none
      | dsp, ']' :: ']' :: r4 => some (name, some dsp, r4)
      | _, _ => none)
    | _, _ => none
  | _ => none

/-- Try to match `IMAGE_PATTERN` at the head of `l`: a `!` followed by a
wiki-link-shaped bracket pair, with the same two groups. -/
def imgMatchAt (l : List Char) : Option (List Char × Option (List Char) × List Char) :=
  match l with
  | '!' :: rest => wikiMatchAt rest
  | _ => none

/-- `_wiki_repl(match)`: the replacement for one wiki-link match.  The page
name (group 1) is stripped; if display text (group 2) is present and
non-empty it is emitted stripped, otherwise the substitution table is
consulted with the page name as default. -/
def _wiki_repl (tbl : List (String × String)) (pageRaw : String)
    (display : Option String) : String :=
  let page := pyStrip pageRaw
  match display with
  | some dsp => if dsp = "" then (pyLookup tbl page).getD page else pyStrip dsp
  | none => (pyLookup tbl page).getD page

/-- `WIKILINK_PATTERN.sub(_wiki_repl, body)`: scan left to right, replace
every match, never rescan emitted text. -/
def wikiSubGo (tbl : List (String × String)) : Nat → List Char → List Char
  | 0, l => l
  | _ + 1, [] => []
  | fuel + 1, c :: cs =>
    match wikiMatchAt (c :: cs) with
    | none => c :: wikiSubGo tbl fuel cs
    | some (page, dsp, rest) =>
      (_wiki_repl tbl ⟨page⟩ (dsp.map (⟨·⟩))).data ++ wikiSubGo tbl fuel rest

/-- The wiki-link pass on a `String`. -/
def wikiSub (tbl : List (String × String)) (s : String) : String :=
  ⟨wikiSubGo tbl s.data.length s.data⟩

/-- Is there any `WIKILINK_PATTERN` match anywhere in `l`? -/
def hasWikiMatch : List Char → Bool
  | [] => false
  | c :: cs => (wikiMatchAt (c :: cs)).isSome || hasWikiMatch cs

/-- The successful-resolution replacement built by `_img_repl`: a standard
Markdown image, with a Jekyll width annotation when the size hint is a
pure integer. -/
def mkImgRepl (imgName path : String) (sizeOpt : Option (List Char)) : String :=
  match sizeOpt with
  | some sz =>
    if pyIsDigit ⟨sz⟩ then
      "![" ++ imgName ++ "](" ++ path ++ ")" ++ "\x7b: width=\"" ++ ⟨sz⟩ ++ "\" \x7d"
    else "![" ++ imgName ++ "](" ++ path ++ ")"
  | none => "![" ++ imgName ++ "](" ++ path ++ ")"

/-- `IMAGE_PATTERN.sub(_img_repl, body)` with the tracking state of
`transform_content` made explicit: thread the first successfully resolved
reference (set only when a resolution succeeds and nothing was recorded
yet) and the destination image store (a copy per successful resolution).
On a failed resolution the original matched text `match.group(0)` is
emitted verbatim. -/
def imageSubGo (srcImg : ImgStore) :
    Nat → List Char → Option String → ImgStore → (List Char × Option String × ImgStore)
  | 0, l, first, d => (l, first, d)
  | _ + 1, [], first, d => ([], first, d)
  | fuel + 1, c :: cs, first, d =>
    match imgMatchAt (c :: cs) with
    | none =>
      let r := imageSubGo srcImg fuel cs first d
      (c :: r.1, r.2)
    | some (name, szOpt, rest) =>
      let imgName := pyStrip ⟨name⟩
      let res := extract_and_copy_image srcImg d imgName
      match res.1 with
      | none =>
        let orig := '!' :: '[' :: '[' ::
          (name ++ (match szOpt with | none => [] | some sz => '|' :: sz) ++ [']', ']'])
        let r := imageSubGo srcImg fuel rest first res.2
        (orig ++ r.1, r.2)
      | some path =>
        let first' := if path != "" && first.isNone then some path else first
        let r := imageSubGo srcImg fuel rest first' res.2
        ((mkImgRepl imgName path szOpt).data ++ r.1, r.2)

/-- The result of `transform_content`: the rewritten body, the first
successfully resolved image reference, and the destination image store
after the copies performed along the way. -/
structure TransformOut where
  body : String
  firstImage : Option String
  destImg : ImgStore
deriving DecidableEq

/-- The image pass on a `String`. -/
def imageSub (srcImg destImg : ImgStore) (s : String) : TransformOut :=
  let r := imageSubGo srcImg s.data.length s.data none destImg
  ⟨⟨r.1⟩, r.2.1, r.2.2⟩

/-- `transform_content(body)`: strip draft sections, rewrite embedded
images (tracking the first resolved reference and copying assets), then
rewrite wiki-links. -/
def transform_content (srcImg destImg : ImgStore) (body : String) : TransformOut :=
  let l0 := draftSubGo body.data.length body.data
  let r1 := imageSubGo srcImg l0.length l0 none destImg
  let l2 := wikiSubGo WIKILINK_REPLACEMENTS r1.1.length r1.1
  ⟨⟨l2⟩, r1.2.1, r1.2.2⟩

/-- The stripped group-1 names of all image matches, in scan order.  Used
to state which asset is "first in document order". -/
def imageMatches : Nat → List Char → List String
  | 0, _ => []
  | _ + 1, [] => []
  | fuel + 1, c :: cs =>
    match imgMatchAt (c :: cs) with
    | none => imageMatches fuel cs
    | some (name, _, rest) => pyStrip ⟨name⟩ :: imageMatches fuel rest

/-- The specification-side first resolved asset: among the embed markers in
scan order, the destination reference of the first whose name resolves. -/
def specFirstImage (srcImg : ImgStore) (l : List Char) : Option String :=
  (imageMatches l.length l).findSome? (resolveImage srcImg)

/-! ## Excerpt extraction (`extract_excerpt`, `_sentence_clip`) -/

/-- `text.rfind('.')`: the index of the last `.` in `l`, if any. -/
def rfindDot : List Char → Option Nat
  | [] => none
  | c :: cs =>
    match rfindDot cs with
    | some i => some (i + 1)
    | none => if c = '.' then some 0 else none

/-- `_sentence_clip(text, limit)` on character lists: unlimited or short
text is returned as is; otherwise clip at the last `.` strictly inside the
first `limit` characters (keeping the period), or hard-clip at `limit`,
and right-strip the clipped text. -/
def sentenceClipL (text : List Char) (limit : Option Nat) : List Char :=
  match limit with
  | none => text
  | some n =>
    if text.length ≤ n then text
    else
      match rfindDot (text.take n) with
      | some cutoff => pyRstripL (text.take (cutoff + 1))
      | none => pyRstripL (text.take n)

/-- Is a stripped line skipped by the excerpt scanner (heading or image
construct)? -/
def isSkipLine (stripped : List Char) : Bool :=
  ['#'].isPrefixOf stripped || ['!', '['].isPrefixOf stripped

/-- The line-accumulation loop of `extract_excerpt`: strip each line; a
blank line ends the paragraph once at least one line was accumulated;
heading and image lines are skipped entirely; other lines are accumulated
(the accumulator is kept reversed). -/
def paraLoop : List (List Char) → List (List Char) → Bool → List (List Char)
  | [], acc, _ => acc.reverse
  | line :: rest, acc, inPara =>
    if (pyStripL line).isEmpty then
      (if inPara && !acc.isEmpty then acc.reverse else paraLoop rest acc inPara)
    else if isSkipLine (pyStripL line) then paraLoop rest acc inPara
    else paraLoop rest (pyStripL line :: acc) true

/-- `extract_excerpt(markdown_body)` with the length budget passed
explicitly (the script reads the global `EXCERPT_MAX`). -/
def extractExcerptWith (limit : Option Nat) (body : String) : String :=
  ⟨sentenceClipL (pyStripL (joinSpace (paraLoop (splitlinesGo [] body.data) [] false)))
    limit⟩

/-- `extract_excerpt(markdown_body)` as the script calls it. -/
def extract_excerpt (body : String) : String := extractExcerptWith EXCERPT_MAX body

/-- The first prose paragraph described by the spec: strip every line, drop
heading and image lines entirely, skip the leading blank lines, and take
the following run of non-blank lines. -/
def firstParaOf (lines : List (List Char)) : List (List Char) :=
  (((lines.map pyStripL).filter (fun s => !isSkipLine s)).dropWhile
      (fun s => s.isEmpty)).takeWhile (fun s => !s.isEmpty)

/-- The excerpt extractor as the spec words it: join the first prose
paragraph with single spaces; if it exceeds the budget clip it at the last
sentence-terminating period at or before the budget boundary, hard-clip at
the budget when no period exists; strip trailing whitespace in all cases;
the empty string results when no qualifying paragraph exists. -/
def excerptSpec (limit : Option Nat) (body : String) : String :=
  let paragraph := pyStripL (joinSpace (firstParaOf (splitlinesGo [] body.data)))
  match limit with
  | none => ⟨pyRstripL paragraph⟩
  | some n =>
    if paragraph.length ≤ n then ⟨pyRstripL paragraph⟩
    else
      match rfindDot (paragraph.take n) with
      | some cutoff => ⟨pyRstripL (paragraph.take (cutoff + 1))⟩
      | none => ⟨pyRstripL (paragraph.take n)⟩

/-! ## The main pipeline (`most_recent_dest`, `process_file`) -/

/-- An output document: the assembled front matter together with the
rewritten body (the content `frontmatter.dumps` serialises). -/
structure OutputDoc where
  fm : Meta
  body : String

/-- The destination post directory: file name to (mtime, content).  An
mtime is an abstract timestamp. -/
abbrev DestStore := List (String × Nat × OutputDoc)

/-- Python `max(candidates, key=mtime)`: the first candidate with maximal
key (later ties do not replace the current maximum). -/
def pyMaxByMtime (l : List (String × Nat × OutputDoc)) : Option (String × Nat × OutputDoc) :=
  l.foldl (fun acc x =>
    match acc with
    | none => some x
    | some b => if b.2.1 < x.2.1 then some x else some b) none

/-- `str.endswith(suffix)`. -/
def pyEndsWith (s suffix : String) : Bool := suffix.data.isSuffixOf s.data

/-- `most_recent_dest(slug)`: among destination files whose name matches
the glob `*-{slug}.md` (that is, ends with `-{slug}.md`), the one with the
latest modification time. -/
def most_recent_dest (slug : String) (destMd : DestStore) :
    Option (String × Nat × OutputDoc) :=
  pyMaxByMtime (destMd.filter (fun e => pyEndsWith e.1 ("-" ++ slug ++ ".md")))

/-- A source document as `process_file` sees it: the path stem, the source
modification time, the parsed front matter, and the body. -/
structure SrcDoc where
  stem : String
  mtime : Nat
  metadata : Meta
  content : String

/-- The mutable destination state: the post directory and the image
directory. -/
structure PubState where
  destMd : DestStore
  destImg : ImgStore

/-- `md_path.stem.replace(" ", "-").lower()`. -/
def slugOf (stem : String) : String :=
  pyLower ⟨stem.data.map (fun c => if c = ' ' then '-' else c)⟩

/-- `md_path.stem.replace('-', ' ').replace('_', ' ').title()`. -/
def fallbackTitleOf (stem : String) : String :=
  pyTitle ⟨stem.data.map (fun c => if c = '-' || c = '_' then ' ' else c)⟩

/-- The value of `new_fm["date"]` (always a string by construction). -/
def fmDateOf (fm : Meta) : String :=
  match pyLookup fm "date" with
  | some (.vstr s) => s
  | _ => ""

/-- The front matter `process_file` assembles for a document. -/
def processFm (now : PyDateTime) (srcImg : ImgStore) (doc : SrcDoc) (st : PubState) :
    Meta :=
  let tr := transform_content srcImg st.destImg doc.content
  assembledRecord now doc.metadata (fallbackTitleOf doc.stem)
    (pyOrStr tr.firstImage DEFAULT_TITLE_IMAGE) (extract_excerpt tr.body)

/-- The destination filename `f"{date_str}-{slug}.md"` where `date_str` is
the first whitespace-separated token of the normalised date. -/
def processDestName (now : PyDateTime) (srcImg : ImgStore) (doc : SrcDoc)
    (st : PubState) : String :=
  (((pySplitWs (fmDateOf (processFm now srcImg doc st))).headD "") : String) ++ "-" ++
    slugOf doc.stem ++ ".md"

/-- The processing branch of `process_file`: transform the body, assemble
the record, and write the destination file (with the write stamping the
given modification time). -/
def processDoc (now : PyDateTime) (writeMtime : Nat) (srcImg : ImgStore)
    (doc : SrcDoc) (st : PubState) : PubState :=
  let tr := transform_content srcImg st.destImg doc.content
  let fm := processFm now srcImg doc st
  ⟨pyUpdate st.destMd (processDestName now srcImg doc st) (writeMtime, ⟨fm, tr.body⟩),
    tr.destImg⟩

/-- `process_file(md_path)`: skip documents not tagged `blog`; skip
documents whose source mtime is not strictly newer than the latest matching
destination file; otherwise process and write. -/
def process_file (now : PyDateTime) (writeMtime : Nat) (srcImg : ImgStore)
    (doc : SrcDoc) (st : PubState) : PubState :=
  if pyInStr "blog" (pyGet doc.metadata "tags" (.vlist [])) = true then
    match most_recent_dest (slugOf doc.stem) st.destMd with
    | some latest =>
      if doc.mtime ≤ latest.2.1 then st else processDoc now writeMtime srcImg doc st
    | none => processDoc now writeMtime srcImg doc st
  else st

/-! ## General lemmas about the embedding -/

theorem length_dropWhile_le (p : Char → Bool) (l : List Char) :
    (l.dropWhile p).length ≤ l.length := by
  induction l with
  | nil => simp [List.dropWhile]
  | cons c cs ih =>
    by_cases h : p c
    · simp only [List.dropWhile, h]
      simp
      omega
    · simp [List.dropWhile, h]

theorem pyLookup_pyUpdate {α : Type} (l : List (String × α)) (k : String) (v : α) :
    pyLookup (pyUpdate l k v) k = some v := by
  induction l with
  | nil => simp [pyUpdate, pyLookup]
  | cons p rest ih =>
    obtain ⟨k', v'⟩ := p
    by_cases h : k' = k
    · simp [pyUpdate, pyLookup, h]
    · simp [pyUpdate, pyLookup, h, ih]

theorem pyUpdate_pyUpdate {α : Type} (l : List (String × α)) (k : String) (v : α) :
    pyUpdate (pyUpdate l k v) k v = pyUpdate l k v := by
  induction l with
  | nil => simp [pyUpdate]
  | cons p rest ih =>
    obtain ⟨k', v'⟩ := p
    by_cases h : k' = k
    · simp [pyUpdate, h]
    · simp [pyUpdate, h, ih]

theorem stripPrefixCI_length (p : List Char) :
    ∀ l r, stripPrefixCI p l = some r → r.length + p.length = l.length := by
  induction p with
  | nil => intro l r h; simp [stripPrefixCI] at h; simp [h]
  | cons x xs ih =>
    intro l r h
    cases l with
    | nil => simp [stripPrefixCI] at h
    | cons c cs =>
      simp only [stripPrefixCI] at h
      split at h
      · have := ih cs r h
        simp [List.length_cons]
        omega
      · exact absurd h (by simp)

theorem draftEndAt_length (l r : List Char) (h : draftEndAt l = some r) :
    r.length < l.length := by
  unfold draftEndAt at h
  split at h
  case _ rest =>
    revert h
    split
    · intro h
      have := stripPrefixCI_length _ _ _ h
      simp at this ⊢
      omega
    · intro h
      have := stripPrefixCI_length _ _ _ h
      simp at this ⊢
      omega
  case _ => exact absurd h (by simp)

theorem findDraftEnd_length :
    ∀ l r, findDraftEnd l = some r → r.length < l.length := by
  intro l
  induction l with
  | nil => intro r h; simp [findDraftEnd] at h
  | cons c cs ih =>
    intro r h
    simp only [findDraftEnd] at h
    split at h
    case _ r' heq =>
      cases h
      exact draftEndAt_length _ _ heq
    case _ =>
      have := ih r h
      simp
      omega

theorem draftMatchAt_length (l r : List Char) (h : draftMatchAt l = some r) :
    r.length < l.length := by
  unfold draftMatchAt at h
  split at h
  case _ rest heq =>
    have h1 := stripPrefixCI_length _ _ _ heq
    have h2 := findDraftEnd_length _ _ h
    simp at h1
    omega
  case _ => exact absurd h (by simp)

theorem wikiMatchAt_length (l : List Char) (name : List Char)
    (dsp : Option (List Char)) (rest : List Char)
    (h : wikiMatchAt l = some (name, dsp, rest)) : rest.length < l.length := by
  unfold wikiMatchAt at h
  split at h
  case _ r0 =>
    have hd1 : (r0.dropWhile isNameChar).length ≤ r0.length :=
      length_dropWhile_le isNameChar r0
    split at h
    · exact absurd h (by simp)
    case _ heqd heqt =>
      cases h
      rw [heqd] at hd1
      simp at hd1 ⊢
      omega
    case _ r2 heqd heqt =>
      have hd2 : (r2.dropWhile isDispChar).length ≤ r2.length :=
        length_dropWhile_le isDispChar r2
      rw [heqd] at hd1
      split at h
      · exact absurd h (by simp)
      case _ heqd2 heqt2 =>
        cases h
        rw [heqd2] at hd2
        simp at hd1 hd2 ⊢
        omega
      case _ => exact absurd h (by simp)
    case _ => exact absurd h (by simp)
  case _ => exact absurd h (by simp)

theorem imgMatchAt_length (l : List Char) (name : List Char)
    (dsp : Option (List Char)) (rest : List Char)
    (h : imgMatchAt l = some (name, dsp, rest)) : rest.length < l.length := by
  unfold imgMatchAt at h
  split at h
  case _ r0 =>
    have := wikiMatchAt_length r0 name dsp rest h
    simp
    omega
  case _ => exact absurd h (by simp)

/-! ## Claim theorems -/

/-- Claim C2 (code bug evidence): the draft stripper does not remove the
documented `<draft>secret</draft>` span at all — that input passes through
byte-identical — whereas the delimiters the compiled pattern actually
accepts are `<--draft-->` with a mandatory backslash in the closing tag,
which do get removed. -/
theorem claim2_draft_delimiters :
    draftSub "before <draft>secret</draft> after" = "before <draft>secret</draft> after"
    ∧ draftSub "a<--draft-->secret<\\--draft-->b" = "ab"
    ∧ draftSub "a<--DRAFT-->x<\\/--draft-->b c<--draft-->y<\\--Draft-->d" = "ab cd" := by
  decide

/-- Claim C1 (code bug evidence): for a missing asset the media pass keeps
the embed marker, but the wiki-link pass then rewrites the marker's inner
bracket pair, so the final body is `!missing.png` and the original marker
text `![[missing.png]]` no longer occurs anywhere in the output. -/
theorem claim1_broken_embed_not_preserved :
    (transform_content [] [] "![[missing.png]]").body = "!missing.png"
    ∧ (transform_content [] [] "![[missing.png]]").firstImage = none
    ∧ containsSub "![[missing.png]]".data "!missing.png".data = false
    ∧ imageSub [] [] "![[missing.png]]" =
        ⟨"![[missing.png]]", none, []⟩ := by
  decide

/-- Claim C8 counterexample: the rewriter can leave wiki bracket syntax in
its output, because a page name may itself contain `[` and replacements are
never rescanned: `[[[[a]]]]` rewrites to `[[a]]`, which still matches
`WIKILINK_PATTERN`. -/
theorem claim8_counterexample :
    wikiSub [] "[[[[a]]]]" = "[[a]]"
    ∧ hasWikiMatch (wikiSub [] "[[[[a]]]]").data = true := by
  decide

/-- Claim C8 (amended): every matched reference marker is replaced by plain
text — the display text trimmed when present, else the substitution-table
entry for the page name, else the page name itself — as in the spec's three
examples; but bracket syntax can remain in the output when a page name
itself contains brackets (see the counterexample). -/
theorem claim8_wiki_rewrite :
    (∀ (tbl : List (String × String)) (page d : String), d ≠ "" →
      _wiki_repl tbl page (some d) = pyStrip d)
    ∧ (∀ (tbl : List (String × String)) (page : String),
      _wiki_repl tbl page none = (pyLookup tbl (pyStrip page)).getD (pyStrip page))
    ∧ wikiSub [] "[[Page|Display Text]]" = "Display Text"
    ∧ wikiSub [] "[[Page]]" = "Page"
    ∧ wikiSub [("Page", "Mapped")] "[[Page]]" = "Mapped" := by
  refine ⟨?_, ?_, by decide, by decide, by decide⟩
  · intro tbl page d hd
    simp [_wiki_repl, hd]
  · intro tbl page
    simp [_wiki_repl]

/-- Claim C8 witness: the display-text rule applied at a concrete marker. -/
theorem claim8_wiki_rewrite_witness :
    ("Display Text" : String) ≠ ""
    ∧ _wiki_repl [] "Page" (some "Display Text") = "Display Text" := by
  refine ⟨by decide, ?_⟩
  have h := claim8_wiki_rewrite.1 [] "Page" "Display Text" (by decide)
  rw [h]
  decide

theorem digitChar_isDigit {k : Nat} (h : k < 10) : (Nat.digitChar k).isDigit = true := by
  interval_cases k <;> decide

theorem digitChar_mod10_isDigit (n : Nat) : (Nat.digitChar (n % 10)).isDigit = true :=
  digitChar_isDigit (Nat.mod_lt n (by norm_num))

theorem fmtDateTime_data (dt : PyDateTime) :
    (fmtDateTime dt).data =
      [Nat.digitChar (dt.year / 1000 % 10), Nat.digitChar (dt.year / 100 % 10),
       Nat.digitChar (dt.year / 10 % 10), Nat.digitChar (dt.year % 10), '-',
       Nat.digitChar (dt.month / 10 % 10), Nat.digitChar (dt.month % 10), '-',
       Nat.digitChar (dt.day / 10 % 10), Nat.digitChar (dt.day % 10), ' ',
       Nat.digitChar (dt.hour / 10 % 10), Nat.digitChar (dt.hour % 10), ':',
       Nat.digitChar (dt.minute / 10 % 10), Nat.digitChar (dt.minute % 10)] := rfl

theorem fmtDate_data (d : PyDate) :
    (fmtDate d).data =
      [Nat.digitChar (d.year / 1000 % 10), Nat.digitChar (d.year / 100 % 10),
       Nat.digitChar (d.year / 10 % 10), Nat.digitChar (d.year % 10), '-',
       Nat.digitChar (d.month / 10 % 10), Nat.digitChar (d.month % 10), '-',
       Nat.digitChar (d.day / 10 % 10), Nat.digitChar (d.day % 10)] := rfl

theorem matchesTimestampShape_fmtDateTime (dt : PyDateTime) :
    matchesTimestampShape (fmtDateTime dt) = true := by
  unfold matchesTimestampShape
  rw [fmtDateTime_data]
  simp [matchesTimestampShapeL, digitChar_mod10_isDigit]

theorem matchesDateShape_fmtDate (d : PyDate) :
    matchesDateShape (fmtDate d) = true := by
  unfold matchesDateShape
  rw [fmtDate_data]
  simp [matchesDateShapeL, digitChar_mod10_isDigit]

/-- Claim C5: date normalisation renders a full timestamp exactly as
`YYYY-MM-DD HH:MM`, a date-only value exactly as `YYYY-MM-DD`, passes a
non-blank free-text value through stripped, and falls back to the current
processing time in `YYYY-MM-DD HH:MM` form when no date value is present. -/
theorem claim5_date_normalisation (now dt : PyDateTime) (d : PyDate) (s : String)
    (_hnow : validDateTime now) (_hdt : validDateTime dt) (_hd : validDate d) :
    _normalise_date now (.vdatetime dt) = fmtDateTime dt
    ∧ matchesTimestampShape (_normalise_date now (.vdatetime dt)) = true
    ∧ _normalise_date now (.vdate d) = fmtDate d
    ∧ matchesDateShape (_normalise_date now (.vdate d)) = true
    ∧ (pyStrip s ≠ "" → _normalise_date now (.vstr s) = pyStrip s)
    ∧ _normalise_date now .vnone = fmtDateTime now
    ∧ matchesTimestampShape (_normalise_date now .vnone) = true := by
  refine ⟨rfl, matchesTimestampShape_fmtDateTime dt, rfl, matchesDateShape_fmtDate d,
    ?_, rfl, matchesTimestampShape_fmtDateTime now⟩
  intro hs
  simp [_normalise_date, hs]

/-- Claim C5 witness: the four normalisation cases at concrete inputs. -/
theorem claim5_date_normalisation_witness :
    validDateTime ⟨2026, 10, 12, 9, 30⟩ ∧ validDateTime ⟨2024, 3, 7, 14, 5⟩
    ∧ validDate ⟨2024, 3, 7⟩ ∧ pyStrip "  around 2020  " ≠ ""
    ∧ _normalise_date ⟨2026, 10, 12, 9, 30⟩ (.vdatetime ⟨2024, 3, 7, 14, 5⟩) =
        "2024-03-07 14:05"
    ∧ _normalise_date ⟨2026, 10, 12, 9, 30⟩ (.vdate ⟨2024, 3, 7⟩) = "2024-03-07"
    ∧ _normalise_date ⟨2026, 10, 12, 9, 30⟩ (.vstr "  around 2020  ") = "around 2020"
    ∧ matchesTimestampShape (_normalise_date ⟨2026, 10, 12, 9, 30⟩ .vnone) = true := by
  refine ⟨by decide, by decide, by decide, by decide, by decide, by decide, ?_, ?_⟩
  · have h := (claim5_date_normalisation ⟨2026, 10, 12, 9, 30⟩ ⟨2024, 3, 7, 14, 5⟩
      ⟨2024, 3, 7⟩ "  around 2020  " (by decide) (by decide) (by decide)).2.2.2.2.1
      (by decide)
    rw [h]
    decide
  · exact (claim5_date_normalisation ⟨2026, 10, 12, 9, 30⟩ ⟨2024, 3, 7, 14, 5⟩
      ⟨2024, 3, 7⟩ "  around 2020  " (by decide) (by decide) (by decide)).2.2.2.2.2.2

/-- Claim C7: the assembled output record has exactly the seven fixed keys
in every case, with `layout` and `categories` constant and `tags` copied
through (empty list if absent). -/
theorem claim7_output_schema (now : PyDateTime) (original : Meta)
    (fallback ti ex : String) :
    (assembledRecord now original fallback ti ex).map Prod.fst =
      ["layout", "categories", "title", "date", "tags", "title-image", "excerpt"]
    ∧ pyLookup (assembledRecord now original fallback ti ex) "layout" =
        some (.vstr "post")
    ∧ pyLookup (assembledRecord now original fallback ti ex) "categories" =
        some (.vstr "blog")
    ∧ pyLookup (assembledRecord now original fallback ti ex) "tags" =
        some (pyGet original "tags" (.vlist []))
    ∧ pyLookup (assembledRecord now original fallback ti ex) "title-image" =
        some (.vstr ti)
    ∧ pyLookup (assembledRecord now original fallback ti ex) "excerpt" =
        some (.vstr ex) := by
  refine ⟨rfl, rfl, rfl, rfl, rfl, rfl⟩

/-- Claim C10: a present-but-falsy `title` (such as the empty string)
behaves exactly as an absent one: selection falls through to `slug`, and a
falsy `slug` falls through to the filename-derived fallback. -/
theorem claim10_falsy_title_fallthrough (original : Meta) (fallback : String)
    (v : Value) (htitle : pyLookup original "title" = some v)
    (hfalsy : pyTruthy v = false) :
    titleSelect original fallback = pyOr (getMetaD original "slug") (.vstr fallback)
    ∧ (pyTruthy (getMetaD original "slug") = false →
        titleSelect original fallback = .vstr fallback) := by
  have ht : getMetaD original "title" = v := by
    unfold getMetaD
    rw [htitle]
    rfl
  have h1 : titleSelect original fallback =
      pyOr (getMetaD original "slug") (.vstr fallback) := by
    unfold titleSelect
    rw [ht]
    simp [pyOr, hfalsy]
  refine ⟨h1, fun h => ?_⟩
  rw [h1]
  simp [pyOr, h]

/-- Claim C10 witness: an empty `title` and empty `slug` select the
fallback title. -/
theorem claim10_falsy_title_fallthrough_witness :
    pyLookup [("title", Value.vstr ""), ("slug", Value.vstr "")] "title" =
      some (.vstr "")
    ∧ pyTruthy (.vstr "") = false
    ∧ titleSelect [("title", Value.vstr ""), ("slug", Value.vstr "")] "My Fallback" =
        .vstr "My Fallback" := by
  refine ⟨rfl, by decide, ?_⟩
  exact (claim10_falsy_title_fallthrough
    [("title", Value.vstr ""), ("slug", Value.vstr "")] "My Fallback"
    (.vstr "") rfl (by decide)).2 (by decide)

theorem stringEta (s : String) : String.mk s.data = s := by
  cases s
  rfl

theorem takeWhile_append_cons (p : Char → Bool) (xs : List Char) (b : Char)
    (bs : List Char) (hxs : ∀ c ∈ xs, p c = true) (hb : p b = false) :
    (xs ++ b :: bs).takeWhile p = xs ∧ (xs ++ b :: bs).dropWhile p = b :: bs := by
  induction xs with
  | nil => simp [List.takeWhile, List.dropWhile, hb]
  | cons x xs ih =>
    have hx : p x = true := hxs x (by simp)
    have ih' := ih (fun c hc => hxs c (by simp [hc]))
    simp [List.takeWhile, List.dropWhile, hx, ih'.1, ih'.2]

theorem wikiMatchAt_marker (name post : List Char) (hne : name ≠ [])
    (hchars : ∀ c ∈ name, isNameChar c = true) :
    wikiMatchAt ('[' :: '[' :: (name ++ ']' :: ']' :: post)) = some (name, none, post) := by
  have h := takeWhile_append_cons isNameChar name ']' (']' :: post) hchars (by decide)
  cases name with
  | nil => exact absurd rfl hne
  | cons n0 ns =>
    simp only [wikiMatchAt]
    rw [h.1, h.2]
    rfl

theorem imageSubGo_nil (srcImg : ImgStore) (fuel : Nat) (first : Option String)
    (d : ImgStore) : imageSubGo srcImg fuel [] first d = ([], first, d) := by
  cases fuel <;> rfl

theorem mapNoBackslash (l : List Char) (h : ∀ c ∈ l, c ≠ '\\') :
    l.map (fun c => if c = '\\' then '/' else c) = l := by
  induction l with
  | nil => rfl
  | cons c cs ih =>
    have hc : c ≠ '\\' := h c (by simp)
    simp [hc, ih (fun x hx => h x (by simp [hx]))]

theorem relPath_no_backslash (name : String) (h : ∀ c ∈ name.data, c ≠ '\\') :
    relPath name = "/images/" ++ name := by
  unfold relPath replaceBackslashes
  have hmap : ("images/" ++ name).data.map (fun c => if c = '\\' then '/' else c) =
      ("images/" ++ name).data := by
    rw [String.data_append, List.map_append]
    rw [mapNoBackslash name.data h]
    rfl
  rw [hmap, stringEta, ← String.append_assoc]
  rfl

theorem relPath_ne_empty (name : String) : relPath name ≠ "" := by
  intro h
  have := congrArg String.data h
  rw [relPath, String.data_append] at this
  simp at this

/-- Claim C9: resolving an asset present in the source store copies it to
the destination store byte-identically, returns the reference
`/<dest-root-relative-path>/<asset-name>` with forward slashes, is
idempotent on re-run (identical destination store and identical returned
reference), and an embed marker for such an asset with no size hint
rewrites to the plain image construct with exactly that reference. -/
theorem claim9_asset_roundtrip (srcImg destImg : ImgStore) (name : String)
    (bytes : Bytes) (hpresent : pyLookup srcImg name = some bytes)
    (hnobs : ∀ c ∈ name.data, c ≠ '\\') (hne : name ≠ "")
    (hchars : ∀ c ∈ name.data, isNameChar c = true) (hstrip : pyStrip name = name) :
    extract_and_copy_image srcImg destImg name =
      (some ("/images/" ++ name), pyUpdate destImg name bytes)
    ∧ pyLookup (pyUpdate destImg name bytes) name = some bytes
    ∧ extract_and_copy_image srcImg (pyUpdate destImg name bytes) name =
        (some ("/images/" ++ name), pyUpdate destImg name bytes)
    ∧ imageSub srcImg destImg ("![[" ++ name ++ "]]") =
        ⟨"![" ++ name ++ "](" ++ ("/images/" ++ name) ++ ")",
          some ("/images/" ++ name), pyUpdate destImg name bytes⟩ := by
  have hrel := relPath_no_backslash name hnobs
  have hcopy : extract_and_copy_image srcImg destImg name =
      (some ("/images/" ++ name), pyUpdate destImg name bytes) := by
    unfold extract_and_copy_image
    simp only [hpresent]
    rw [hrel]
  refine ⟨hcopy, pyLookup_pyUpdate destImg name bytes, ?_, ?_⟩
  · unfold extract_and_copy_image
    simp only [hpresent]
    rw [hrel, pyUpdate_pyUpdate]
  · have hdata : ("![[" ++ name ++ "]]").data =
        '!' :: '[' :: '[' :: (name.data ++ ']' :: ']' :: ([] : List Char)) := by
      rw [String.data_append, String.data_append]
      simp
    have hnedata : name.data ≠ [] := by
      intro hcon
      exact hne (by cases name with | _ d => simp at hcon; simp [hcon])
    have hmatch := wikiMatchAt_marker name.data [] hnedata hchars
    have hlen : ('!' :: '[' :: '[' :: (name.data ++ ']' :: ']' :: ([] : List Char))).length =
        name.data.length + 4 + 1 := by
      simp
    simp only [imageSub]
    rw [hdata, hlen]
    have hstep : imageSubGo srcImg (name.data.length + 4 + 1)
        ('!' :: '[' :: '[' :: (name.data ++ ']' :: ']' :: ([] : List Char))) none destImg =
        ((mkImgRepl (pyStrip ⟨name.data⟩) ("/images/" ++ name) none).data ++ [],
          some ("/images/" ++ name), pyUpdate destImg name bytes) := by
      have himg : imgMatchAt ('!' :: '[' :: '[' ::
          (name.data ++ ']' :: ']' :: ([] : List Char))) = some (name.data, none, []) := by
        unfold imgMatchAt
        exact hmatch
      have hbne : (("/images/" ++ name : String) != "") = true := by
        have hne2 : ("/images/" ++ name : String) ≠ "" := by
          rw [← hrel]
          exact relPath_ne_empty name
        simp [hne2]
      rw [imageSubGo, himg]
      dsimp only
      rw [stringEta name, hstrip, hcopy]
      dsimp only
      rw [hbne]
      simp [imageSubGo_nil]
    rw [hstep]
    have heta : (⟨name.data⟩ : String) = name := stringEta name
    rw [heta, hstrip]
    unfold mkImgRepl
    apply congrArg (fun b => TransformOut.mk b (some ("/images/" ++ name))
      (pyUpdate destImg name bytes))
    rw [List.append_nil, stringEta]

/-- Claim C9 witness: the round trip at a concrete store and asset. -/
theorem claim9_asset_roundtrip_witness :
    pyLookup [("photo.png", [7, 8, 9])] "photo.png" = some [7, 8, 9]
    ∧ extract_and_copy_image [("photo.png", [7, 8, 9])] [] "photo.png" =
        (some "/images/photo.png", [("photo.png", [7, 8, 9])])
    ∧ imageSub [("photo.png", [7, 8, 9])] [] "![[photo.png]]" =
        ⟨"![photo.png](/images/photo.png)", some "/images/photo.png",
          [("photo.png", [7, 8, 9])]⟩ := by
  have h := claim9_asset_roundtrip [("photo.png", [7, 8, 9])] [] "photo.png" [7, 8, 9]
    (by decide) (by decide) (by decide) (by decide) (by decide)
  exact ⟨by decide, h.1, h.2.2.2⟩

theorem extract_fst_eq (srcImg d : ImgStore) (n : String) :
    (extract_and_copy_image srcImg d n).1 = resolveImage srcImg n := by
  unfold resolveImage extract_and_copy_image
  cases pyLookup srcImg n <;> rfl

theorem resolveImage_eq (srcImg : ImgStore) (n : String) (p : String)
    (h : resolveImage srcImg n = some p) : p = relPath n := by
  unfold resolveImage extract_and_copy_image at h
  cases hl : pyLookup srcImg n with
  | none => rw [hl] at h; exact absurd h (by simp)
  | some b =>
    rw [hl] at h
    simp at h
    exact h.symm

theorem imageSubGo_first_some (srcImg : ImgStore) :
    ∀ fuel l p d, (imageSubGo srcImg fuel l (some p) d).2.1 = some p := by
  intro fuel
  induction fuel with
  | zero => intro l p d; rfl
  | succ f ih =>
    intro l p d
    cases l with
    | nil => rfl
    | cons c cs =>
      rw [imageSubGo]
      cases himg : imgMatchAt (c :: cs) with
      | none =>
        dsimp only
        exact ih cs p d
      | some t =>
        obtain ⟨nm, sz, rest⟩ := t
        dsimp only
        cases hres : (extract_and_copy_image srcImg d (pyStrip ⟨nm⟩)).1 with
        | none =>
          dsimp only
          exact ih rest p _
        | some path =>
          dsimp only
          simp only [Option.isNone_some, Bool.and_false, Bool.false_eq_true, if_false]
          exact ih rest p _

theorem imageSubGo_first_none (srcImg : ImgStore) :
    ∀ fuel l d, l.length ≤ fuel →
      (imageSubGo srcImg fuel l none d).2.1 =
        (imageMatches fuel l).findSome? (resolveImage srcImg) := by
  intro fuel
  induction fuel with
  | zero =>
    intro l d hl
    have hnil : l = [] := List.eq_nil_of_length_eq_zero (Nat.le_zero.mp hl)
    subst hnil
    rfl
  | succ f ih =>
    intro l d hl
    cases l with
    | nil => rfl
    | cons c cs =>
      rw [imageSubGo, imageMatches]
      cases himg : imgMatchAt (c :: cs) with
      | none =>
        dsimp only
        exact ih cs d (by simp at hl; omega)
      | some t =>
        obtain ⟨nm, sz, rest⟩ := t
        have hrest : rest.length ≤ f := by
          have hlt := imgMatchAt_length (c :: cs) nm sz rest himg
          simp at hlt hl
          omega
        dsimp only
        rw [List.findSome?_cons]
        cases hres : resolveImage srcImg (pyStrip ⟨nm⟩) with
        | none =>
          rw [extract_fst_eq, hres]
          dsimp only
          exact ih rest _ hrest
        | some path =>
          rw [extract_fst_eq, hres]
          dsimp only
          have hpath : path = relPath (pyStrip ⟨nm⟩) := resolveImage_eq _ _ _ hres
          have hbne : (path != "") = true := by
            rw [hpath]
            simp [relPath_ne_empty]
          rw [hbne]
          simp only [Option.isNone_none, Bool.and_true, if_pos]
          exact imageSubGo_first_some srcImg f rest path _

/-- Claim C6: the tracked first-image reference equals the reference of the
first successfully resolved embed marker in document order (later successes
never overwrite it), and the title-image value falls back to the configured
default exactly when no marker resolves. -/
theorem claim6_first_image (srcImg destImg : ImgStore) (body : String) :
    (transform_content srcImg destImg body).firstImage =
      specFirstImage srcImg (draftSub body).data
    ∧ pyOrStr (transform_content srcImg destImg body).firstImage DEFAULT_TITLE_IMAGE =
        (specFirstImage srcImg (draftSub body).data).getD DEFAULT_TITLE_IMAGE := by
  have h1 : (transform_content srcImg destImg body).firstImage =
      specFirstImage srcImg (draftSub body).data := by
    unfold transform_content specFirstImage draftSub
    dsimp only
    exact imageSubGo_first_none srcImg _ _ destImg (le_refl _)
  refine ⟨h1, ?_⟩
  cases hspec : specFirstImage srcImg (draftSub body).data with
  | none =>
    rw [h1, hspec]
    rfl
  | some p =>
    have hne : p ≠ "" := by
      unfold specFirstImage at hspec
      obtain ⟨a, _, ha⟩ := List.exists_of_findSome?_eq_some hspec
      rw [resolveImage_eq srcImg a p ha]
      exact relPath_ne_empty a
    rw [h1, hspec]
    simp [pyOrStr, hne]

theorem dropWhile_idem (p : Char → Bool) (l : List Char) :
    (l.dropWhile p).dropWhile p = l.dropWhile p := by
  induction l with
  | nil => rfl
  | cons c cs ih =>
    by_cases h : p c
    · simp [List.dropWhile, h, ih]
    · simp [List.dropWhile, h]

theorem pyRstrip_pyStrip (l : List Char) : pyRstripL (pyStripL l) = pyStripL l := by
  unfold pyStripL pyRstripL pyLstripL
  rw [List.reverse_reverse, dropWhile_idem]

theorem paraLoop_acc (lines : List (List Char)) :
    ∀ acc, acc ≠ [] → paraLoop lines acc true =
      acc.reverse ++ ((lines.map pyStripL).filter (fun s => !isSkipLine s)).takeWhile
        (fun s => !s.isEmpty) := by
  induction lines with
  | nil =>
    intro acc _
    simp [paraLoop]
  | cons line rest ih =>
    intro acc hacc
    have haccb : acc.isEmpty = false := by
      cases acc with
      | nil => exact absurd rfl hacc
      | cons a as => rfl
    by_cases hblank : (pyStripL line).isEmpty = true
    · have hnil : pyStripL line = [] := List.isEmpty_iff.mp hblank
      simp [paraLoop, hblank, haccb, hnil, isSkipLine, List.isPrefixOf]
    · by_cases hskip : isSkipLine (pyStripL line) = true
      · simp [paraLoop, hblank, hskip, ih acc hacc]
      · have hkeep : (!isSkipLine (pyStripL line)) = true := by simp [hskip]
        have hne : (!(pyStripL line).isEmpty) = true := by simp [hblank]
        simp only [paraLoop, hblank, if_false, hskip, Bool.false_eq_true]
        rw [ih (pyStripL line :: acc) (by simp)]
        simp [hkeep, hne, hblank, hskip]

theorem paraLoop_none (lines : List (List Char)) :
    paraLoop lines [] false = firstParaOf lines := by
  induction lines with
  | nil => rfl
  | cons line rest ih =>
    unfold firstParaOf at ih ⊢
    by_cases hblank : (pyStripL line).isEmpty = true
    · have hnil : pyStripL line = [] := List.isEmpty_iff.mp hblank
      simp only [paraLoop, hblank, if_true, Bool.false_and, Bool.false_eq_true, if_false]
      rw [ih]
      simp [hnil, isSkipLine, List.isPrefixOf]
    · by_cases hskip : isSkipLine (pyStripL line) = true
      · simp only [paraLoop, hblank, Bool.false_eq_true, if_false, hskip, if_true]
        rw [ih]
        simp [hskip]
      · simp only [paraLoop, hblank, Bool.false_eq_true, if_false, hskip]
        rw [paraLoop_acc rest [pyStripL line] (by simp)]
        simp [hskip, hblank]

theorem rfindDot_none (l : List Char) (h : rfindDot l = none) :
    ∀ j, j < l.length → l.get? j ≠ some '.' := by
  induction l with
  | nil => intro j hj; simp at hj
  | cons c cs ih =>
    intro j hj
    rw [rfindDot] at h
    cases hr : rfindDot cs with
    | some k => rw [hr] at h; exact absurd h (by simp)
    | none =>
      rw [hr] at h
      have hc : c ≠ '.' := by
        intro hcon
        rw [if_pos hcon] at h
        exact absurd h (by simp)
      cases j with
      | zero => simp [hc]
      | succ j' =>
        simp only [List.get?_cons_succ]
        exact ih hr j' (by simp at hj; omega)

theorem rfindDot_some (l : List Char) :
    ∀ i, rfindDot l = some i →
      i < l.length ∧ l.get? i = some '.' ∧
        ∀ j, i < j → j < l.length → l.get? j ≠ some '.' := by
  induction l with
  | nil => intro i h; simp [rfindDot] at h
  | cons c cs ih =>
    intro i h
    rw [rfindDot] at h
    cases hr : rfindDot cs with
    | some k =>
      rw [hr] at h
      have hik : i = k + 1 := by
        simp at h
        omega
      subst hik
      obtain ⟨h1, h2, h3⟩ := ih k hr
      refine ⟨by simp; omega, by simpa using h2, ?_⟩
      intro j hj hjl
      cases j with
      | zero => omega
      | succ j' =>
        simp only [List.get?_cons_succ]
        exact h3 j' (by omega) (by simp at hjl; omega)
    | none =>
      rw [hr] at h
      by_cases hc : c = '.'
      · rw [if_pos hc] at h
        have hi : i = 0 := by simp at h; omega
        subst hi
        refine ⟨by simp, by simp [hc], ?_⟩
        intro j hj hjl
        cases j with
        | zero => omega
        | succ j' =>
          simp only [List.get?_cons_succ]
          exact rfindDot_none cs hr j' (by simp at hjl; omega)
      · rw [if_neg hc] at h
        exact absurd h (by simp)

/-- Claim C3: the excerpt extractor agrees everywhere with the spec's
description (first prose paragraph with blank-line skipping, heading and
image lines dropped, single-space joining, stop at the first blank line
after accumulation; sentence-boundary clipping within the budget with
hard clip as fallback; trailing whitespace always stripped; empty string
when nothing qualifies); `rfindDot` really is the last period at or before
the boundary; and the spec's concrete 600-character example clips through
the period at index 450, yielding 451 characters. -/
theorem claim3_excerpt :
    (∀ (limit : Option Nat) (body : String),
      extractExcerptWith limit body = excerptSpec limit body)
    ∧ (∀ (l : List Char) (i : Nat), rfindDot l = some i →
        i < l.length ∧ l.get? i = some '.' ∧
          ∀ j, i < j → j < l.length → l.get? j ≠ some '.')
    ∧ (∀ l : List Char, rfindDot l = none → ∀ j, j < l.length → l.get? j ≠ some '.')
    ∧ extract_excerpt ⟨List.replicate 450 'a' ++ '.' :: List.replicate 149 'b'⟩ =
        ⟨List.replicate 450 'a' ++ ['.']⟩ := by
  refine ⟨?_, fun l i h => rfindDot_some l i h, fun l h => rfindDot_none l h, by decide⟩
  intro limit body
  unfold extractExcerptWith excerptSpec
  rw [paraLoop_none]
  have hr : pyRstripL (pyStripL (joinSpace (firstParaOf (splitlinesGo [] body.data)))) =
      pyStripL (joinSpace (firstParaOf (splitlinesGo [] body.data))) :=
    pyRstrip_pyStrip _
  cases limit with
  | none => simp [sentenceClipL, hr]
  | some n =>
    by_cases hlen :
        (pyStripL (joinSpace (firstParaOf (splitlinesGo [] body.data)))).length ≤ n
    · simp [sentenceClipL, hlen, hr]
    · simp only [sentenceClipL, hlen, if_false]
      cases rfindDot
        ((pyStripL (joinSpace (firstParaOf (splitlinesGo [] body.data)))).take n) <;> rfl

/-- Claim C3 witness: the pointwise agreement and the period
characterisation at concrete inputs. -/
theorem claim3_excerpt_witness :
    extractExcerptWith (some 10) "Hello there. More text" =
      excerptSpec (some 10) "Hello there. More text"
    ∧ rfindDot "ab.".data = some 2
    ∧ (2 < ("ab.".data).length ∧ ("ab.".data).get? 2 = some '.' ∧
        ∀ j, 2 < j → j < ("ab.".data).length → ("ab.".data).get? j ≠ some '.') := by
  refine ⟨claim3_excerpt.1 (some 10) "Hello there. More text", by decide, ?_⟩
  exact claim3_excerpt.2.1 "ab.".data 2 (by decide)

/-- Claim C4: for a publish-tagged document, when a matching destination
file exists and the source mtime is not strictly newer (equality included),
`process_file` returns the state unchanged — no rewriting, no writes; when
the source is strictly newer (or no match exists) the document is processed
and the computed destination filename is (over)written with the freshly
assembled output. -/
theorem claim4_freshness (now : PyDateTime) (writeMtime : Nat) (srcImg : ImgStore)
    (doc : SrcDoc) (st : PubState)
    (hblog : pyInStr "blog" (pyGet doc.metadata "tags" (.vlist [])) = true) :
    (∀ e, most_recent_dest (slugOf doc.stem) st.destMd = some e → doc.mtime ≤ e.2.1 →
      process_file now writeMtime srcImg doc st = st)
    ∧ (∀ e, most_recent_dest (slugOf doc.stem) st.destMd = some e → e.2.1 < doc.mtime →
      process_file now writeMtime srcImg doc st = processDoc now writeMtime srcImg doc st
      ∧ pyLookup (process_file now writeMtime srcImg doc st).destMd
          (processDestName now srcImg doc st) =
        some (writeMtime, ⟨processFm now srcImg doc st,
          (transform_content srcImg st.destImg doc.content).body⟩))
    ∧ (most_recent_dest (slugOf doc.stem) st.destMd = none →
      process_file now writeMtime srcImg doc st = processDoc now writeMtime srcImg doc st) := by
  unfold process_file
  rw [if_pos hblog]
  refine ⟨?_, ?_, ?_⟩
  · intro e he hle
    rw [he]
    dsimp only
    rw [if_pos hle]
  · intro e he hlt
    rw [he]
    dsimp only
    rw [if_neg (by omega)]
    refine ⟨rfl, ?_⟩
    unfold processDoc
    dsimp only
    exact pyLookup_pyUpdate _ _ _
  · intro hnone
    rw [hnone]

/-- Claim C4 witness: a document with mtime equal to its latest destination
match is skipped with the state unchanged. -/
theorem claim4_freshness_witness :
    pyInStr "blog"
      (pyGet [("tags", Value.vlist [Value.vstr "blog"])] "tags" (.vlist [])) = true
    ∧ most_recent_dest (slugOf "My Note")
        [("2024-01-01-my-note.md", 5, (⟨[], ""⟩ : OutputDoc))] =
        some ("2024-01-01-my-note.md", 5, (⟨[], ""⟩ : OutputDoc))
    ∧ (5 : Nat) ≤ 5
    ∧ process_file ⟨2024, 1, 1, 0, 0⟩ 9 []
        ⟨"My Note", 5, [("tags", .vlist [.vstr "blog"])], "hello"⟩
        ⟨[("2024-01-01-my-note.md", 5, ⟨[], ""⟩)], []⟩ =
        ⟨[("2024-01-01-my-note.md", 5, ⟨[], ""⟩)], []⟩ := by
  refine ⟨by decide, rfl, by decide, ?_⟩
  exact (claim4_freshness ⟨2024, 1, 1, 0, 0⟩ 9 []
    ⟨"My Note", 5, [("tags", .vlist [.vstr "blog"])], "hello"⟩
    ⟨[("2024-01-01-my-note.md", 5, ⟨[], ""⟩)], []⟩ (by decide)).1
    ("2024-01-01-my-note.md", 5, ⟨[], ""⟩) rfl (by decide)

end BlogPub
